import Mathlib

/-!
Verification of the Profitability Dashboard core (src/app.py).

The development has four parts:

1. A typed payload model for provider payloads that conform to the documented
   schema: annual and quarterly line items are maps from field names to arrays
   of number-or-null, the ttm section is a map from field names to a single
   number-or-null, and the period end dates are strings.  Python numbers are
   embedded as rationals.  The functions get_ttm and extract_historical_df are
   transcribed from the source over this model.

2. A raw JSON model, used for the robustness property: the source wraps the
   whole extraction in a try/except that converts any internal exception into
   an empty table.  Here the payload is an arbitrary JSON value, each Python
   primitive (attribute access, indexing, membership, iteration, arithmetic)
   is modelled in the Except monad, raising exactly where Python raises, and
   the outer wrapper catches every error.

3. A model of format_currency.  Its argument is a Python value (None, a
   number, or a non-numeric value represented by a string); abs on a
   non-numeric value raises TypeError, which the model reflects in Except.

4. A model of fetch_quickfs_data as a function of the sequence of HTTP
   responses, reporting the result, the number of requests made and the
   number of one-second sleeps performed.
-/

/-! ## Part 1: typed payload model -/

/-- A map from field names to arrays of number-or-null, as in
financials.annual and financials.quarterly.  Python dict lookup is modelled
by first-match association-list lookup. -/
abbrev FinMap : Type := List (String × List (Option Rat))

/-- The financials.ttm map: field name to a single number-or-null. -/
abbrev TtmMap : Type := List (String × Option Rat)

/-- The financials section of a payload.  The ttm field is an Option because
the source tests key presence with a membership check before indexing;
annual and quarterly are read with .get defaulting to an empty dict, so a
missing section is observationally an empty map. -/
structure Financials where
  annual : FinMap
  quarterly : FinMap
  ttm : Option TtmMap
deriving DecidableEq

/-- A schema-conforming provider payload: the period end dates plus the
financials section. -/
structure Payload where
  periodEndDate : List String
  fin : Financials
deriving DecidableEq

/-- The metric table of extract_historical_df: label to candidate field
names, in source order. -/
def metricsMap : List (String × List String) :=
  [("Revenue", ["revenue"]),
   ("Gross Profit", ["gross_profit"]),
   ("Operating Profit", ["operating_income"]),
   ("EBITDA", ["ebitda"]),
   ("NOPAT", ["nopat_derived"]),
   ("Net Income", ["net_income"]),
   ("EPS (Diluted)", ["eps_diluted"]),
   ("Operating Cash Flow", ["cf_cfo", "cfo"]),
   ("Free Cash Flow", ["fcf"])]

/-- First loop of get_ttm: for each candidate k, if the financials dict has a
ttm entry containing k, return the stored value (which may itself be null).
The outer none means no candidate matched. -/
def ttmScan (fin : Financials) : List String → Option (Option Rat)
  | [] => none
  | k :: ks =>
    match fin.ttm with
    | some m =>
      match m.lookup k with
      | some v => some v
      | none => ttmScan fin ks
    | none => ttmScan fin ks

/-- Second loop of get_ttm: for each candidate k, if quarterly has a
non-empty array under k and at least 4 of its entries are non-null, return
the sum of the last 4 non-null entries; otherwise keep scanning. -/
def qtrScan (q : FinMap) : List String → Option Rat
  | [] => none
  | k :: ks =>
    match q.lookup k with
    | some arr =>
      if arr.isEmpty then qtrScan q ks
      else
        let valid := arr.filterMap id
        if 4 ≤ valid.length then some ((valid.drop (valid.length - 4)).sum)
        else qtrScan q ks
    | none => qtrScan q ks

/-- get_ttm from the source: explicit ttm entry first (first candidate whose
key is present wins, returning the stored value even when it is null), then
the quarterly fallback, else null. -/
def get_ttm (fin : Financials) (keys : List String) : Option Rat :=
  match ttmScan fin keys with
  | some v => v
  | none => qtrScan fin.quarterly keys

/-- The per-entry year label: the substring of a period end date before the
first dash, taken verbatim (the source performs no integer conversion).
Python split on a dash followed by taking element 0 returns the longest
initial segment free of the single-character separator, which is what
takeWhile computes on the character list. -/
def yearLabel (d : String) : String :=
  String.mk (d.data.takeWhile (fun c => !(c == '-')))

/-- All year labels of a payload, in payload order. -/
def yearLabels (p : Payload) : List String :=
  p.periodEndDate.map yearLabel

/-- Python slice xs[-n:]: the last n elements when n is positive, the whole
list when n = 0 (since xs[-0:] is xs[0:]). -/
def pySliceLast (n : Nat) (xs : List α) : List α :=
  if n = 0 then xs else xs.drop (xs.length - n)

/-- Pad a row with a default element up to length n, then truncate to length
n, as the final loop of extract_historical_df does against the column list. -/
def padTo (pad : α) (v : List α) (n : Nat) : List α :=
  (v ++ List.replicate (n - v.length) pad).take n

/-- The NOPAT combination rule of the TTM fallback branch: operating income
minus income tax when both are available, operating income times 0.79 when
only operating income is available, null otherwise. -/
def nopatRule (fin : Financials) : Option Rat :=
  match get_ttm fin ["operating_income"], get_ttm fin ["income_tax"] with
  | some op, some tax => some (op - tax)
  | some op, none => some (op * (0.79 : Rat))
  | none, _ => none

/-- The TTM cell of one row: get_ttm on the candidate names, with the manual
NOPAT fallback when the metric is NOPAT and get_ttm returned null. -/
def ttmCell (fin : Financials) (label : String) (keys : List String) : Option Rat :=
  let ttm0 := get_ttm fin keys
  if label = "NOPAT" ∧ ttm0 = none then nopatRule fin
  else ttm0

/-- The annual cells of one row, newest first, before padding: the first
candidate present in annual picks the array, which is sliced to the last
years entries and reversed.  A candidate equal to the empty string would be
falsy in the source test (if valid_key), hence the extra branch; and the
NOPAT history fallback of the source (lines 167 to 174) is guarded by
(label == NOPAT and not valid_key) nested inside (if valid_key), a
contradiction, so it is unreachable and does not appear here: the NOPAT row
looks up the literal key nopat_derived like any other metric. -/
def histCells (fin : Financials) (years : Nat) (keys : List String) :
    List (Option Rat) :=
  match keys.find? (fun k => (List.lookup k fin.annual).isSome) with
  | some k =>
    if k = "" then List.replicate years none
    else (pySliceLast years ((List.lookup k fin.annual).getD [])).reverse
  | none => List.replicate years none

/-- One row of the table, before padding: the TTM cell followed by the
annual cells. -/
def buildRow (fin : Financials) (years : Nat) (label : String) (keys : List String) :
    List (Option Rat) :=
  ttmCell fin label keys :: histCells fin years keys

/-- The output table: column labels (TTM first, then year labels newest
first) and one row of cells per metric label. -/
structure HistTable where
  cols : List String
  rows : List (String × List (Option Rat))
deriving DecidableEq

/-- extract_historical_df over a schema-conforming payload.  Columns are
the literal string TTM followed by the last (at most) years year labels in
reversed (newest-first) order; each metric row is padded or truncated to the
column count. -/
def extract_historical_df (p : Payload) (years : Nat := 10) : HistTable :=
  let cols := "TTM" :: (pySliceLast years (yearLabels p)).reverse
  let rows := metricsMap.map
    (fun lk => (lk.1, padTo none (buildRow p.fin years lk.1 lk.2) cols.length))
  ⟨cols, rows⟩

/-! ## Part 2: raw JSON model

The source receives the payload as parsed JSON (Python dicts, lists, strings,
numbers, booleans, None) and wraps the whole extraction in try/except.  Each
Python primitive used by the source is modelled here in the Except monad and
raises exactly where Python raises. -/

/-- A parsed JSON value as Python sees it. -/
inductive Json where
  | null : Json
  | bool : Bool → Json
  | num : Rat → Json
  | str : String → Json
  | arr : List Json → Json
  | obj : List (String × Json) → Json

namespace Json

/-- Python x.get(key, default): dicts only; every other value raises
AttributeError. -/
def pyGet : Json → String → Json → Except String Json
  | .obj xs, k, d => .ok ((xs.lookup k).getD d)
  | _, _, _ => .error "AttributeError: no attribute get"

/-- Python iteration: lists yield elements, strings yield one-character
strings, dicts yield their keys; other values raise TypeError. -/
def pyIter : Json → Except String (List Json)
  | .arr xs => .ok xs
  | .str s => .ok (s.data.map (fun c => .str (String.mk [c])))
  | .obj xs => .ok (xs.map (fun kv => .str kv.1))
  | _ => .error "TypeError: object is not iterable"

/-- Python d.split(dash)[0]: strings only; split never returns an empty
list, so taking the element at 0 is safe, and with a single-character
separator it is the longest dash-free initial segment (yearLabel).
Non-strings raise AttributeError. -/
def pySplitDashHead : Json → Except String String
  | .str s => .ok (String.mk (s.data.takeWhile (fun c => !(c == '-'))))
  | _ => .error "AttributeError: no attribute split"

/-- Whether a string t occurs as a substring of s (Python in on strings). -/
def strContains (s t : String) : Bool :=
  t = "" ∨ 2 ≤ (s.splitOn t).length

/-- Python k in x for a string k: key membership for dicts, element
membership for lists (string equality only, since a str equals no non-str),
substring test for strings; other values raise TypeError. -/
def pyContainsStr : Json → String → Except String Bool
  | .obj xs, k => .ok ((xs.lookup k).isSome)
  | .arr xs, k => .ok (xs.any (fun e => match e with | .str s => s = k | _ => false))
  | .str s, k => .ok (strContains s k)
  | _, _ => .error "TypeError: argument is not a container"

/-- Python x[k] for a string k: dict indexing (KeyError when absent); every
other value raises TypeError. -/
def pyIndexStr : Json → String → Except String Json
  | .obj xs, k =>
    match xs.lookup k with
    | some v => .ok v
    | none => .error "KeyError"
  | _, _ => .error "TypeError: not subscriptable by str"

/-- Python truthiness of a value. -/
def pyTruthy : Json → Bool
  | .null => false
  | .bool b => b
  | .num q => !(q = 0 : Bool)
  | .str s => !(s = "" : Bool)
  | .arr xs => !xs.isEmpty
  | .obj xs => !xs.isEmpty

/-- The numeric reading of a value: numbers are themselves, booleans count
as 0 or 1 (Python bool is numeric); everything else is non-numeric. -/
def asNum : Json → Option Rat
  | .num q => some q
  | .bool b => some (if b then 1 else 0)
  | _ => none

/-- Whether the value is None (Python is None). -/
def isNull : Json → Bool
  | .null => true
  | _ => false

/-- Python a - b: numeric operands only. -/
def pySub (a b : Json) : Except String Json :=
  match a.asNum, b.asNum with
  | some x, some y => .ok (.num (x - y))
  | _, _ => .error "TypeError: unsupported operand for -"

/-- Python a * 0.79: numeric operand only (a string times a float raises). -/
def pyMul79 (a : Json) : Except String Json :=
  match a.asNum with
  | some x => .ok (.num (x * (0.79 : Rat)))
  | none => .error "TypeError: unsupported operand for *"

/-- Python sum over a list, starting from 0: every element must be numeric. -/
def pySumList (xs : List Json) : Except String Rat :=
  xs.foldlM (fun acc x =>
    match x.asNum with
    | some q => .ok (acc + q)
    | none => .error "TypeError: unsupported operand for +") 0

/-- Python sliced_vals = x[-years:] followed by sliced_vals.reverse(): the
slice works on lists and strings, but only a list has a reverse method, so a
string raises AttributeError and anything else raises TypeError. -/
def pySliceRev (j : Json) (years : Nat) : Except String (List Json) :=
  match j with
  | .arr xs => .ok ((pySliceLast years xs).reverse)
  | .str _ => .error "AttributeError: no attribute reverse"
  | _ => .error "TypeError: not subscriptable"

end Json

/-- The table produced by the raw extraction: column labels and one list of
JSON cells per metric label (the pandas DataFrame transposed view). -/
structure JTable where
  cols : List String
  rows : List (String × List Json)

/-- The empty table returned by the except branch (pd.DataFrame()). -/
def JTable.empty : JTable := ⟨[], []⟩

/-- First loop of get_ttm over raw JSON: for each candidate k, evaluate
(ttm in fin and k in fin[ttm]) with Python short-circuiting and, when true,
return fin[ttm][k].  The outer none means the loop fell through. -/
def ttmScanRaw (fin : Json) : List String → Except String (Option Json)
  | [] => .ok none
  | k :: ks => do
    let c1 ← fin.pyContainsStr "ttm"
    if c1 then
      let t ← fin.pyIndexStr "ttm"
      let c2 ← t.pyContainsStr k
      if c2 then
        let v ← t.pyIndexStr k
        return some v
      else ttmScanRaw fin ks
    else ttmScanRaw fin ks

/-- Second loop of get_ttm over raw JSON: for each candidate k, when
(k in q and q[k]) holds, filter the entries of q[k] that are not None and,
when at least 4 remain, return the sum of the last 4 (a TypeError from a
non-numeric entry propagates); otherwise keep scanning.  Falling through
returns None as the source does. -/
def qtrScanRaw (q : Json) : List String → Except String Json
  | [] => .ok .null
  | k :: ks => do
    let c ← q.pyContainsStr k
    if c then
      let qk ← q.pyIndexStr k
      if qk.pyTruthy then
        let items ← qk.pyIter
        let valid := items.filter (fun x => !x.isNull)
        if 4 ≤ valid.length then
          let s ← Json.pySumList (valid.drop (valid.length - 4))
          return .num s
        else qtrScanRaw q ks
      else qtrScanRaw q ks
    else qtrScanRaw q ks

/-- get_ttm over raw JSON: the explicit-ttm loop, then the quarterly
fallback on fin.get(quarterly, empty dict). -/
def get_ttm_raw (fin : Json) (keys : List String) : Except String Json := do
  match ← ttmScanRaw fin keys with
  | some v => return v
  | none =>
    let q ← fin.pyGet "quarterly" (.obj [])
    qtrScanRaw q keys

/-- The generator expression next((k for k in keys if k in annual), None):
the first candidate contained in annual, where the membership test itself
may raise when annual is not a container. -/
def findFirstContained (annual : Json) : List String → Except String (Option String)
  | [] => .ok none
  | k :: ks => do
    let c ← annual.pyContainsStr k
    if c then return some k else findFirstContained annual ks

/-- The TTM cell of the per-metric loop over raw JSON (source lines 150 to
160): get_ttm on the candidates, then the manual NOPAT fallback when the
metric is NOPAT and get_ttm returned None. -/
def ttmValRaw (fin : Json) (label : String) (keys : List String) :
    Except String Json := do
  let ttm0 ← get_ttm_raw fin keys
  if label = "NOPAT" ∧ ttm0.isNull then do
    let op ← get_ttm_raw fin ["operating_income"]
    let tax ← get_ttm_raw fin ["income_tax"]
    if !op.isNull then
      if !tax.isNull then Json.pySub op tax
      else Json.pyMul79 op
    else pure ttm0
  else pure ttm0

/-- The annual history cells of the per-metric loop over raw JSON (source
lines 162 to 181): the first candidate contained in annual picks the array,
which is sliced and reversed; None placeholders otherwise. -/
def histRaw (annual : Json) (years : Nat) (keys : List String) :
    Except String (List Json) := do
  let valid_key ← findFirstContained annual keys
  match valid_key with
  | some k =>
    if k = "" then pure (List.replicate years Json.null)
    else do
      let annual_vals ← annual.pyIndexStr k
      annual_vals.pySliceRev years
  | none => pure (List.replicate years Json.null)

/-- The body of the per-metric loop of extract_historical_df over raw JSON
(source lines 147 to 183): the TTM cell followed by the annual cells. -/
def buildRowRaw (fin annual : Json) (years : Nat) (lk : String × List String) :
    Except String (String × List Json) := do
  let ttm_val ← ttmValRaw fin lk.1 lk.2
  let hist ← histRaw annual years lk.2
  return (lk.1, ttm_val :: hist)

/-- The body of extract_historical_df over raw JSON, inside the try block:
every step is transcribed from the source in order, and any step may raise. -/
def extract_body (data : Json) (years : Nat) : Except String JTable := do
  let d1 ← data.pyGet "data" (.obj [])
  let fin ← d1.pyGet "financials" (.obj [])
  let annual ← fin.pyGet "annual" (.obj [])
  let _ttm ← fin.pyGet "ttm" (.obj [])
  let md ← d1.pyGet "metadata" (.obj [])
  let dates ← md.pyGet "period_end_date" (.arr [])
  let dlist ← dates.pyIter
  let years_list ← dlist.mapM Json.pySplitDashHead
  let history ← metricsMap.mapM (buildRowRaw fin annual years)
  let cols := "TTM" :: (pySliceLast years years_list).reverse
  let finalRows := history.map (fun r => (r.1, padTo Json.null r.2 cols.length))
  return ⟨cols, finalRows⟩

/-- extract_historical_df over raw JSON: the try/except wrapper, converting
any internal exception into the empty table. -/
def extract_historical_df_raw (data : Json) (years : Nat := 10) : JTable :=
  match extract_body data years with
  | .ok t => t
  | .error _ => JTable.empty

/-! ## Part 3: format_currency -/

/-- The argument of format_currency as Python sees it: None, a number
(embedded as a rational), or a non-numeric value represented by a string. -/
inductive PyVal where
  | vnone : PyVal
  | vnum : Rat → PyVal
  | vstr : String → PyVal
deriving DecidableEq

/-- Round to the nearest integer, ties to even, as Python float formatting
does on exact halves. -/
def roundHalfEven (q : Rat) : Int :=
  if q - ⌊q⌋ < 1/2 then ⌊q⌋
  else if 1/2 < q - ⌊q⌋ then ⌊q⌋ + 1
  else if ⌊q⌋ % 2 = 0 then ⌊q⌋ else ⌊q⌋ + 1

/-- Two decimal digits with a leading zero when needed. -/
def twoDigits (k : Nat) : String :=
  if k < 10 then "0" ++ toString k else toString k

/-- Insert thousands separators into a reversed digit list, grouping by 3. -/
def commaGroupAux : List Char → List Char
  | a :: b :: c :: d :: rest => a :: b :: c :: ',' :: commaGroupAux (d :: rest)
  | l => l

/-- Insert thousands separators into a digit string. -/
def commaGroup (s : String) : String :=
  String.mk ((commaGroupAux s.data.reverse).reverse)

/-- Python format spec .2f on a number: sign taken from the value, then the
magnitude rounded at two decimals, ties to even. -/
def fmt2 (q : Rat) : String :=
  (if q < 0 then "-" else "") ++
    (toString ((roundHalfEven (q * 100)).natAbs / 100) ++ "." ++
      twoDigits ((roundHalfEven (q * 100)).natAbs % 100))

/-- Python format spec ,.2f: as fmt2 but with thousands separators in the
integer part. -/
def fmtComma2 (q : Rat) : String :=
  (if q < 0 then "-" else "") ++
    (commaGroup (toString ((roundHalfEven (q * 100)).natAbs / 100)) ++ "." ++
      twoDigits ((roundHalfEven (q * 100)).natAbs % 100))

/-- format_currency from the source.  None maps to N/A; a number is scaled
by magnitude (billions, millions, or plain with separators); a non-numeric
value reaches abs(value), which raises TypeError. -/
def format_currency (value : PyVal) (currency_symbol : String := "$") :
    Except String String :=
  match value with
  | .vnone => .ok "N/A"
  | .vstr _ => .error "TypeError: bad operand type for abs(): str"
  | .vnum q =>
    if 1000000000 ≤ |q| then .ok (currency_symbol ++ fmt2 (q / 1000000000) ++ "B")
    else if 1000000 ≤ |q| then .ok (currency_symbol ++ fmt2 (q / 1000000) ++ "M")
    else .ok (currency_symbol ++ fmtComma2 q)

/-! ## Part 4: fetch_quickfs_data -/

/-- One outcome of an HTTP GET attempt: a response carrying a status code
and body, or a transport failure (requests.exceptions.RequestException). -/
inductive HttpResp where
  | resp : Nat → String → HttpResp
  | netFail : String → HttpResp

/-- The observable outcome of fetch_quickfs_data: the returned value (the
parsed body on success, None otherwise), the number of GET requests issued,
and the number of one-second sleeps performed. -/
structure FetchOutcome where
  result : Option String
  requests : Nat
  sleeps : Nat
deriving DecidableEq

/-- The retry loop of fetch_quickfs_data, with i the index of the current
attempt into the response sequence and rem the number of retries still
allowed (rem = retries - attempt, so the source test attempt < retries is
the case split on rem).  Status 200 returns the body; a 5xx status sleeps
one second and retries while retries remain, else reports and returns None;
404, any other non-200 status, and a transport failure report and return
None at once. -/
def fetchAux (responses : Nat → HttpResp) (i : Nat) : Nat → FetchOutcome
  | 0 =>
    match responses i with
    | .resp code body =>
      if code = 200 then ⟨some body, 1, 0⟩
      else if 500 ≤ code then ⟨none, 1, 0⟩
      else if code = 404 then ⟨none, 1, 0⟩
      else ⟨none, 1, 0⟩
    | .netFail _ => ⟨none, 1, 0⟩
  | rem + 1 =>
    match responses i with
    | .resp code body =>
      if code = 200 then ⟨some body, 1, 0⟩
      else if 500 ≤ code then
        let o := fetchAux responses (i + 1) rem
        ⟨o.result, o.requests + 1, o.sleeps + 1⟩
      else if code = 404 then ⟨none, 1, 0⟩
      else ⟨none, 1, 0⟩
    | .netFail _ => ⟨none, 1, 0⟩

/-- fetch_quickfs_data as a function of the response sequence, with the
default retries=2 from the source. -/
def fetch_quickfs_data (responses : Nat → HttpResp) (retries : Nat := 2) : FetchOutcome :=
  fetchAux responses 0 retries

/-! ## Auxiliary predicates used in theorem statements -/

/-- Whether the explicit-ttm test of get_ttm succeeds for candidate k:
the financials dict has a ttm entry and that entry contains k. -/
def ttmContainsB (fin : Financials) (k : String) : Bool :=
  match fin.ttm with
  | some m => (m.lookup k).isSome
  | none => false

/-- Whether the quarterly fallback fires for candidate k: quarterly has an
array under k whose non-null entries number at least 4. -/
def hasFourValid (q : FinMap) (k : String) : Bool :=
  match q.lookup k with
  | some arr => decide (4 ≤ (arr.filterMap id).length)
  | none => false

/-- The non-null entries of the quarterly array under k, in order. -/
def validEntries (q : FinMap) (k : String) : List Rat :=
  ((q.lookup k).getD []).filterMap id

/-- The sum of the last 4 entries of a list. -/
def lastFourSum (l : List Rat) : Rat :=
  (l.drop (l.length - 4)).sum

/-! ## Concrete example payloads used by witnesses and counterexamples -/

/-- The worked alignment example: three fiscal years and a two-element
revenue array. -/
def pC1 : Payload :=
  { periodEndDate := ["2020-12-31", "2021-12-31", "2022-12-31"],
    fin := { annual := [("revenue", [some 100, some 200])], quarterly := [], ttm := none } }

/-- A payload whose annual section has both operating income and income tax
for its single fiscal year. -/
def pC2 : Payload :=
  { periodEndDate := ["2022-12-31"],
    fin := { annual := [("operating_income", [some 10]), ("income_tax", [some 2])],
             quarterly := [], ttm := none } }

/-- A payload for the NOPAT TTM rule: an explicit ttm operating income and
nothing else. -/
def pC2w : Payload :=
  { periodEndDate := ["2022-12-31"],
    fin := { annual := [], quarterly := [],
             ttm := some [("operating_income", some 10)] } }

/-- A payload with an unparsable period end date entry. -/
def pNA : Payload :=
  { periodEndDate := ["N/A"],
    fin := { annual := [("revenue", [some 100])], quarterly := [], ttm := none } }

/-- A payload with three ascending fiscal years and an explicit ttm
operating income. -/
def pC4 : Payload :=
  { periodEndDate := ["2020-12-31", "2021-12-31", "2022-12-31"],
    fin := { annual := [("operating_income", [some 1, some 2, some 3])],
             quarterly := [], ttm := some [("operating_income", some 42)] } }

/-- Financials with no ttm section and exactly four quarterly revenue
values. -/
def finC5 : Financials :=
  { annual := [], quarterly := [("revenue", [some 10, some 20, some 30, some 40])],
    ttm := none }

/-- Financials with no ttm section and only three quarterly revenue
values. -/
def finC5b : Financials :=
  { annual := [], quarterly := [("revenue", [some 10, some 20, some 30])],
    ttm := none }

/-- Financials with an explicit ttm revenue and contradicting quarterly
data. -/
def finC6 : Financials :=
  { annual := [], quarterly := [("revenue", [some 1, some 1, some 1, some 1])],
    ttm := some [("revenue", some 7)] }

/-- Financials whose ttm section stores an explicit null under the second
candidate cfo while the first candidate cf_cfo has a value, and whose
quarterly section has four valid cfo values. -/
def finC10 : Financials :=
  { annual := [], quarterly := [("cfo", [some 1, some 2, some 3, some 4])],
    ttm := some [("cf_cfo", some 5), ("cfo", none)] }

/-- Financials whose ttm section stores an explicit null under cfo, its
only entry, with four valid quarterly cfo values. -/
def finC10w : Financials :=
  { annual := [], quarterly := [("cfo", [some 1, some 2, some 3, some 4])],
    ttm := some [("cfo", none)] }

/-! ## Encoding of schema-conforming payloads into raw JSON

The typed model of Part 1 is related to the raw model of Part 2 by an
encoding: a schema-conforming payload becomes the JSON value the provider
would have sent, and the refinement theorem at the end of this file proves
that the raw extraction, run on the encoded payload, succeeds and returns
exactly the encoding of the typed table. -/

/-- A cell as JSON: null for an absent value, a number otherwise. -/
def encodeOpt : Option Rat → Json
  | none => Json.null
  | some q => Json.num q

/-- An annual or quarterly section as JSON. -/
def encodeFinMap (m : FinMap) : Json :=
  Json.obj (m.map (fun kv => (kv.1, Json.arr (kv.2.map encodeOpt))))

/-- A ttm section as JSON. -/
def encodeTtmMap (m : TtmMap) : Json :=
  Json.obj (m.map (fun kv => (kv.1, encodeOpt kv.2)))

/-- The financials dict as JSON; the ttm key is present exactly when the
typed payload has a ttm section. -/
def encodeFin (fin : Financials) : Json :=
  Json.obj ([("annual", encodeFinMap fin.annual),
    ("quarterly", encodeFinMap fin.quarterly)] ++
    (match fin.ttm with
     | some m => [("ttm", encodeTtmMap m)]
     | none => []))

/-- A whole payload as the JSON value the provider sends. -/
def encodePayload (p : Payload) : Json :=
  Json.obj [("data", Json.obj [
    ("metadata", Json.obj [("period_end_date",
      Json.arr (p.periodEndDate.map Json.str))]),
    ("financials", encodeFin p.fin)])]

/-- A typed table as the raw table. -/
def encodeTable (t : HistTable) : JTable :=
  ⟨t.cols, t.rows.map (fun r => (r.1, r.2.map encodeOpt))⟩

/-! ## Helper lemmas -/

theorem pySliceLast_of_le {xs : List α} {n : Nat} (h : xs.length ≤ n) :
    pySliceLast n xs = xs := by
  unfold pySliceLast
  rcases Nat.eq_zero_or_pos n with h0 | h0
  · simp [h0]
  · have : xs.length - n = 0 := by omega
    simp [Nat.pos_iff_ne_zero.mp h0, this]

theorem padTo_length (pad : α) (v : List α) (n : Nat) :
    (padTo pad v n).length = n := by
  unfold padTo
  rw [List.length_take, List.length_append, List.length_replicate]
  omega

theorem padTo_of_le {pad : α} {v : List α} {n : Nat} (h : v.length ≤ n) :
    padTo pad v n = v ++ List.replicate (n - v.length) pad := by
  unfold padTo
  apply List.take_of_length_le
  rw [List.length_append, List.length_replicate]
  omega

theorem padTo_cons_head? (pad a : α) (v : List α) (n : Nat) :
    (padTo pad (a :: v) (n + 1)).head? = some a := by
  unfold padTo
  rw [List.cons_append, List.take_succ_cons]
  rfl

theorem lookup_metricsMap (f : String × List String → List (Option Rat))
    (label : String) (keys : List String) (hmem : (label, keys) ∈ metricsMap) :
    List.lookup label (metricsMap.map (fun lk => (lk.1, f lk))) = some (f (label, keys)) := by
  fin_cases hmem <;> rfl

theorem extract_cols (p : Payload) (years : Nat) :
    (extract_historical_df p years).cols =
      "TTM" :: (pySliceLast years (yearLabels p)).reverse := rfl

theorem extract_rows_lookup (p : Payload) (years : Nat) (label : String)
    (keys : List String) (hmem : (label, keys) ∈ metricsMap) :
    List.lookup label (extract_historical_df p years).rows =
      some (padTo none (buildRow p.fin years label keys)
        ((pySliceLast years (yearLabels p)).reverse.length + 1)) := by
  exact lookup_metricsMap
    (fun lk => padTo none (buildRow p.fin years lk.1 lk.2)
      ((pySliceLast years (yearLabels p)).reverse.length + 1)) label keys hmem

theorem histCells_eq {fin : Financials} {years : Nat} {keys : List String}
    {k : String} {A : List (Option Rat)}
    (hfind : keys.find? (fun c => (List.lookup c fin.annual).isSome) = some k)
    (hk : ¬ k = "") (hA : List.lookup k fin.annual = some A) :
    histCells fin years keys = (pySliceLast years A).reverse := by
  unfold histCells
  simp only [hfind, hk, hA, if_false, Option.getD_some]

theorem ttmCell_of_ne {fin : Financials} {label : String} {keys : List String}
    (h : ¬ label = "NOPAT") : ttmCell fin label keys = get_ttm fin keys := by
  unfold ttmCell
  simp [h]

theorem ttmScan_cons_none {fin : Financials} {k : String} {ks : List String}
    (h : fin.ttm = none) : ttmScan fin (k :: ks) = ttmScan fin ks := by
  conv_lhs => unfold ttmScan
  simp only [h]

theorem ttmScan_cons_miss {fin : Financials} {m : TtmMap} {k : String}
    {ks : List String} (h : fin.ttm = some m) (h2 : m.lookup k = none) :
    ttmScan fin (k :: ks) = ttmScan fin ks := by
  conv_lhs => unfold ttmScan
  simp only [h, h2]

theorem ttmScan_cons_hit {fin : Financials} {m : TtmMap} {k : String}
    {ks : List String} {v : Option Rat} (h : fin.ttm = some m)
    (h2 : m.lookup k = some v) : ttmScan fin (k :: ks) = some v := by
  unfold ttmScan
  simp only [h, h2]

theorem ttmScan_eq_none {fin : Financials} {keys : List String}
    (h : ∀ k ∈ keys, ttmContainsB fin k = false) : ttmScan fin keys = none := by
  induction keys with
  | nil => rfl
  | cons k ks ih =>
    have hk := h k (List.mem_cons_self k ks)
    have hrest : ∀ a ∈ ks, ttmContainsB fin a = false :=
      fun a ha => h a (List.mem_cons_of_mem _ ha)
    unfold ttmContainsB at hk
    cases hfin : fin.ttm with
    | none => rw [ttmScan_cons_none hfin]; exact ih hrest
    | some m =>
      simp only [hfin] at hk
      cases hlk : List.lookup k m with
      | some v => rw [hlk] at hk; simp at hk
      | none => rw [ttmScan_cons_miss hfin hlk]; exact ih hrest

theorem ttmScan_first {fin : Financials} {m : TtmMap} (pre : List String)
    {k : String} (post : List String) {v : Option Rat}
    (hm : fin.ttm = some m)
    (hpre : ∀ a ∈ pre, m.lookup a = none)
    (hk : m.lookup k = some v) :
    ttmScan fin (pre ++ k :: post) = some v := by
  induction pre with
  | nil =>
    rw [List.nil_append]
    exact ttmScan_cons_hit hm hk
  | cons a pre ih =>
    rw [List.cons_append, ttmScan_cons_miss hm (hpre a (List.mem_cons_self a pre))]
    exact ih fun b hb => hpre b (List.mem_cons_of_mem _ hb)

theorem qtrScan_cons_missing {q : FinMap} {k : String} {ks : List String}
    (h : q.lookup k = none) : qtrScan q (k :: ks) = qtrScan q ks := by
  conv_lhs => unfold qtrScan
  simp only [h]

theorem qtrScan_cons_skip {q : FinMap} {k : String} {ks : List String}
    {arr : List (Option Rat)} (h : q.lookup k = some arr)
    (h4 : ¬ 4 ≤ (arr.filterMap id).length) :
    qtrScan q (k :: ks) = qtrScan q ks := by
  conv_lhs => unfold qtrScan
  simp only [h]
  by_cases he : arr.isEmpty
  · simp [he]
  · simp [he, h4]

theorem qtrScan_cons_hit {q : FinMap} {k : String} {ks : List String}
    {arr : List (Option Rat)} (h : q.lookup k = some arr)
    (h4 : 4 ≤ (arr.filterMap id).length) :
    qtrScan q (k :: ks) =
      some (((arr.filterMap id).drop ((arr.filterMap id).length - 4)).sum) := by
  have hne : arr.isEmpty = false := by
    cases arr with
    | nil => simp at h4
    | cons x t => rfl
  unfold qtrScan
  simp only [h, hne, Bool.false_eq_true, if_false, if_pos h4]

theorem qtrScan_eq_none {q : FinMap} {keys : List String}
    (h : ∀ k ∈ keys, hasFourValid q k = false) : qtrScan q keys = none := by
  induction keys with
  | nil => rfl
  | cons k ks ih =>
    have hk := h k (List.mem_cons_self k ks)
    have hrest : ∀ a ∈ ks, hasFourValid q a = false :=
      fun a ha => h a (List.mem_cons_of_mem _ ha)
    unfold hasFourValid at hk
    cases hlk : q.lookup k with
    | none => rw [qtrScan_cons_missing hlk]; exact ih hrest
    | some arr =>
      simp only [hlk] at hk
      have h4 : ¬ 4 ≤ (arr.filterMap id).length := of_decide_eq_false hk
      rw [qtrScan_cons_skip hlk h4]
      exact ih hrest

theorem qtrScan_first {q : FinMap} (pre : List String) {k : String}
    (post : List String)
    (hpre : ∀ a ∈ pre, hasFourValid q a = false)
    (hk : hasFourValid q k = true) :
    qtrScan q (pre ++ k :: post) = some (lastFourSum (validEntries q k)) := by
  induction pre with
  | nil =>
    rw [List.nil_append]
    unfold hasFourValid at hk
    cases hlk : q.lookup k with
    | none => rw [hlk] at hk; simp at hk
    | some arr =>
      simp only [hlk] at hk
      have h4 : 4 ≤ (arr.filterMap id).length := of_decide_eq_true hk
      rw [qtrScan_cons_hit hlk h4]
      unfold lastFourSum validEntries
      rw [hlk]
      rfl
  | cons a pre ih =>
    rw [List.cons_append]
    have ha := hpre a (List.mem_cons_self a pre)
    have hrest : ∀ b ∈ pre, hasFourValid q b = false :=
      fun b hb => hpre b (List.mem_cons_of_mem _ hb)
    unfold hasFourValid at ha
    cases hla : q.lookup a with
    | none => rw [qtrScan_cons_missing hla]; exact ih hrest
    | some arr =>
      simp only [hla] at ha
      have h4 : ¬ 4 ≤ (arr.filterMap id).length := of_decide_eq_false ha
      rw [qtrScan_cons_skip hla h4]
      exact ih hrest

theorem get_ttm_of_scan_some {fin : Financials} {keys : List String}
    {v : Option Rat} (h : ttmScan fin keys = some v) : get_ttm fin keys = v := by
  unfold get_ttm
  rw [h]

theorem get_ttm_of_scan_none {fin : Financials} {keys : List String}
    (h : ttmScan fin keys = none) :
    get_ttm fin keys = qtrScan fin.quarterly keys := by
  unfold get_ttm
  rw [h]

/-! ## Claim theorems -/

/-- C5: for financials with no explicit TTM entry for any candidate field
name, get_ttm falls back to the quarterly scan: it returns, for the first
candidate whose quarterly array keeps at least 4 numeric values after
discarding nulls, the sum of the last 4 values of that filtered list; and it
returns null when every candidate keeps fewer than 4. -/
theorem quarterly_fallback_sum (fin : Financials) (keys : List String)
    (hnt : ∀ k ∈ keys, ttmContainsB fin k = false) :
    ((∀ k ∈ keys, hasFourValid fin.quarterly k = false) → get_ttm fin keys = none) ∧
    (∀ pre k post, keys = pre ++ k :: post →
      (∀ a ∈ pre, hasFourValid fin.quarterly a = false) →
      hasFourValid fin.quarterly k = true →
      get_ttm fin keys = some (lastFourSum (validEntries fin.quarterly k))) := by
  have hscan : ttmScan fin keys = none := ttmScan_eq_none hnt
  constructor
  · intro h4
    rw [get_ttm_of_scan_none hscan]
    exact qtrScan_eq_none h4
  · intro pre k post hkeys hpre hk
    rw [get_ttm_of_scan_none hscan, hkeys]
    exact qtrScan_first pre post hpre hk

/-- Witness for C5: four quarterly values 10, 20, 30, 40 sum to 100; three
values give null. -/
theorem quarterly_fallback_sum_witness :
    get_ttm finC5 ["revenue"] = some 100 ∧ get_ttm finC5b ["revenue"] = none := by
  constructor
  · have h := (quarterly_fallback_sum finC5 ["revenue"] (by decide)).2
      [] "revenue" [] rfl (by decide) (by decide)
    rw [h]
    have hv : validEntries finC5.quarterly "revenue" = [10, 20, 30, 40] := by decide
    rw [hv]
    norm_num [lastFourSum]
  · exact (quarterly_fallback_sum finC5b ["revenue"] (by decide)).1 (by decide)

/-- C6: when the ttm section contains some candidate, get_ttm returns the
stored value of the first contained candidate, whatever the quarterly
section holds (the financials record, including quarterly, is arbitrary). -/
theorem ttm_precedence (fin : Financials) (pre post : List String) (k : String)
    (m : TtmMap) (v : Option Rat)
    (hm : fin.ttm = some m)
    (hpre : ∀ a ∈ pre, m.lookup a = none)
    (hk : m.lookup k = some v) :
    get_ttm fin (pre ++ k :: post) = v :=
  get_ttm_of_scan_some (ttmScan_first pre post hm hpre hk)

/-- Witness for C6: an explicit ttm revenue of 7 wins over four quarterly
values that sum to 4. -/
theorem ttm_precedence_witness : get_ttm finC6 ["revenue"] = some 7 :=
  ttm_precedence finC6 [] [] "revenue" [("revenue", some 7)] (some 7)
    rfl (by decide) (by decide)

/-- Counterexample to C10 as stated: the ttm map of finC10 stores null
under the candidate cfo and four valid quarterly cfo values exist, yet
get_ttm returns 5 (the value of the earlier candidate cf_cfo), not null:
presence of a null under some candidate does not by itself force a null
result. -/
theorem ttm_null_shortcircuit_counterexample :
    (finC10.ttm.getD []).lookup "cfo" = some none ∧
    "cfo" ∈ ["cf_cfo", "cfo"] ∧
    hasFourValid finC10.quarterly "cfo" = true ∧
    get_ttm finC10 ["cf_cfo", "cfo"] = some 5 ∧
    ¬ get_ttm finC10 ["cf_cfo", "cfo"] = none := by decide

/-- C10 amended: when the first candidate present in the ttm map stores
null, get_ttm returns null immediately and the quarterly fallback is never
consulted, regardless of how many valid quarterly values exist. -/
theorem ttm_null_first_candidate (fin : Financials) (pre post : List String)
    (k : String) (m : TtmMap)
    (hm : fin.ttm = some m)
    (hpre : ∀ a ∈ pre, m.lookup a = none)
    (hk : m.lookup k = some none) :
    get_ttm fin (pre ++ k :: post) = none :=
  get_ttm_of_scan_some (ttmScan_first pre post hm hpre hk)

/-- Witness for C10 amended: a stored null under cfo silences four valid
quarterly cfo values. -/
theorem ttm_null_first_candidate_witness :
    get_ttm finC10w ["cf_cfo", "cfo"] = none ∧
    hasFourValid finC10w.quarterly "cfo" = true := by
  constructor
  · exact ttm_null_first_candidate finC10w ["cf_cfo"] [] "cfo" [("cfo", none)]
      rfl (by decide) (by decide)
  · decide

/-- Counterexample to C2 as stated: pC2 has operating income 10 and income
tax 2 for fiscal year 2022, so the claimed annual rule would give a NOPAT of
8 under 2022; the produced NOPAT row is entirely null (while the Operating
Profit row does show 10), because the annual NOPAT fallback of the source is
unreachable. -/
theorem nopat_annual_counterexample :
    List.lookup "operating_income" pC2.fin.annual = some [some 10] ∧
    List.lookup "income_tax" pC2.fin.annual = some [some 2] ∧
    List.lookup "NOPAT" (extract_historical_df pC2 10).rows = some [none, none] ∧
    List.lookup "Operating Profit" (extract_historical_df pC2 10).rows =
      some [none, some 10] := by decide

/-- C2 amended: whenever the payload has no nopat_derived entry anywhere
get_ttm can see it (hT) and none in annual (hA), the NOPAT row of the table
is the TTM fallback value computed by the claimed rule followed by an
entirely null annual part, whatever operating income and income tax the
annual section holds: the rule governs the TTM column only, and the annual
NOPAT cells are always absent. -/
theorem nopat_ttm_rule_and_absent_annual (p : Payload)
    (hT : get_ttm p.fin ["nopat_derived"] = none)
    (hA : List.lookup "nopat_derived" p.fin.annual = none) :
    List.lookup "NOPAT" (extract_historical_df p 10).rows =
      some (nopatRule p.fin ::
        List.replicate (min (yearLabels p).length 10) none) := by
  have hmem : ("NOPAT", ["nopat_derived"]) ∈ metricsMap := by decide
  rw [extract_rows_lookup p 10 "NOPAT" ["nopat_derived"] hmem]
  have hrow : buildRow p.fin 10 "NOPAT" ["nopat_derived"] =
      nopatRule p.fin :: List.replicate 10 none := by
    unfold buildRow
    congr 1
    · unfold ttmCell
      simp only [hT]
      simp
    · unfold histCells
      have hfind : (["nopat_derived"] : List String).find?
          (fun k => (List.lookup k p.fin.annual).isSome) = none := by
        simp [List.find?, hA]
      rw [hfind]
  rw [hrow]
  have hlen : (pySliceLast 10 (yearLabels p)).reverse.length =
      min (yearLabels p).length 10 := by
    rw [List.length_reverse]
    unfold pySliceLast
    rw [if_neg (by omega)]
    rw [List.length_drop]
    omega
  rw [hlen]
  unfold padTo
  simp only [List.length_cons, List.length_replicate]
  have h0 : min (yearLabels p).length 10 + 1 - (10 + 1) = 0 := by omega
  rw [h0, List.replicate_zero, List.append_nil, List.take_succ_cons,
    List.take_replicate,
    Nat.min_eq_left (by omega : min (yearLabels p).length 10 ≤ 10)]

/-- Witness for C2 amended: an explicit ttm operating income of 10 and no
income tax yields a NOPAT TTM cell of 7.9 and a null annual cell. -/
theorem nopat_ttm_rule_and_absent_annual_witness :
    List.lookup "NOPAT" (extract_historical_df pC2w 10).rows =
      some [some (79 / 10), none] := by
  have h := nopat_ttm_rule_and_absent_annual pC2w (by decide) (by decide)
  rw [h]
  have h1 : get_ttm pC2w.fin ["operating_income"] = some 10 := by decide
  have h2 : get_ttm pC2w.fin ["income_tax"] = none := by decide
  unfold nopatRule
  simp only [h1, h2]
  norm_num [show (yearLabels pC2w).length = 1 from by decide]

/-- Counterexample to C3 as stated: the payload with period end date N/A
produces a fully built, non-empty table whose second column is labelled
N/A and carries the revenue value, rather than the claimed empty table. -/
theorem unparsable_date_counterexample :
    (extract_historical_df pNA 10).cols = ["TTM", "N/A"] ∧
    List.lookup "Revenue" (extract_historical_df pNA 10).rows =
      some [none, some 100] ∧
    ¬ extract_historical_df pNA 10 = HistTable.mk [] [] := by decide

/-- C3 amended: the builder performs no integer parsing of period end
dates.  For every schema-conforming payload the column labels are the
literal substrings before the first dash, in reversed slice order after the
TTM label, and the table always carries all nine metric rows, so an entry
such as N/A yields a column labelled N/A, never an empty table. -/
theorem year_labels_verbatim (p : Payload) (years : Nat) :
    (extract_historical_df p years).cols =
      "TTM" :: (pySliceLast years (p.periodEndDate.map yearLabel)).reverse ∧
    (extract_historical_df p years).rows.map Prod.fst =
      ["Revenue", "Gross Profit", "Operating Profit", "EBITDA", "NOPAT",
       "Net Income", "EPS (Diluted)", "Operating Cash Flow", "Free Cash Flow"] :=
  ⟨rfl, rfl⟩

/-- Counterexample to C4 as stated: on a payload whose dates ascend from
2020 to 2022 the produced columns are TTM first and then the years newest
first, not ascending years with TTM appended last. -/
theorem columns_order_counterexample :
    (extract_historical_df pC4 10).cols = ["TTM", "2022", "2021", "2020"] ∧
    (extract_historical_df pC4 10).cols.head? = some "TTM" ∧
    (extract_historical_df pC4 10).cols.getLast? = some "2020" ∧
    ¬ (extract_historical_df pC4 10).cols = ["2020", "2021", "2022", "TTM"] := by
  decide

/-- C4 amended: in every produced table the TTM column comes first,
followed by the year labels of the (at most ten) most recent payload
entries in reversed payload order (descending when the payload dates
ascend); the TTM column is always present, and for every metric other than
NOPAT its TTM cell is exactly the get_ttm resolution of the candidate field
names. -/
theorem columns_ttm_first_desc (p : Payload) (label : String) (keys : List String)
    (hmem : (label, keys) ∈ metricsMap) (hlab : ¬ label = "NOPAT") :
    (extract_historical_df p 10).cols =
      "TTM" :: (pySliceLast 10 (yearLabels p)).reverse ∧
    ∃ r, List.lookup label (extract_historical_df p 10).rows = some r ∧
      r.head? = some (get_ttm p.fin keys) := by
  refine ⟨rfl, padTo none (buildRow p.fin 10 label keys)
      ((pySliceLast 10 (yearLabels p)).reverse.length + 1),
    extract_rows_lookup p 10 label keys hmem, ?_⟩
  unfold buildRow
  rw [padTo_cons_head?, ttmCell_of_ne hlab]

/-- Witness for C4 amended: the Operating Profit TTM cell of pC4 equals the
explicit ttm value 42. -/
theorem columns_ttm_first_desc_witness :
    ∃ r, List.lookup "Operating Profit" (extract_historical_df pC4 10).rows =
        some r ∧
      r.head? = some (get_ttm pC4.fin ["operating_income"]) ∧
      get_ttm pC4.fin ["operating_income"] = some 42 := by
  obtain ⟨hc, r, hr, hh⟩ := columns_ttm_first_desc pC4 "Operating Profit"
    ["operating_income"] (by decide) (by decide)
  exact ⟨r, hr, hh, by decide⟩

/-- C1: right alignment from the most recent end.  For any metric of the
table whose chosen annual array A is reconciled against the year labels
(with the display window at least as wide as the year list, as with the
default ten-year window in the worked example), the produced row r has the
TTM cell at position 0 and satisfies: when A is no longer than the year
list, element i of A lands at the column of year label Y - D + i (counting
year labels oldest first, D = length of A, Y = number of years) and the
oldest Y - D year columns hold null; when A is longer, only the last Y
elements of A survive, newest under the most recent year. -/
theorem hist_right_alignment (p : Payload) (yearsP : Nat) (label : String)
    (keys : List String) (k : String) (A : List (Option Rat))
    (hmem : (label, keys) ∈ metricsMap)
    (hfind : keys.find? (fun c => (List.lookup c p.fin.annual).isSome) = some k)
    (hk : ¬ k = "")
    (hA : List.lookup k p.fin.annual = some A)
    (hY : (yearLabels p).length ≤ yearsP) :
    ∃ r, List.lookup label (extract_historical_df p yearsP).rows = some r ∧
      r.length = (yearLabels p).length + 1 ∧
      (extract_historical_df p yearsP).cols = "TTM" :: (yearLabels p).reverse ∧
      (A.length ≤ (yearLabels p).length →
        (∀ i, i < A.length → r[A.length - i]? = A[i]?) ∧
        (∀ i, i < A.length →
          (extract_historical_df p yearsP).cols[A.length - i]? =
            (yearLabels p)[(yearLabels p).length - A.length + i]?) ∧
        (∀ j, A.length < j → j ≤ (yearLabels p).length → r[j]? = some none)) ∧
      ((yearLabels p).length < A.length →
        ∀ j, j < (yearLabels p).length → r[j + 1]? = A[A.length - 1 - j]?) := by
  have hslice : pySliceLast yearsP (yearLabels p) = yearLabels p :=
    pySliceLast_of_le hY
  have hrow := extract_rows_lookup p yearsP label keys hmem
  rw [hslice, List.length_reverse] at hrow
  have hhist : histCells p.fin yearsP keys = (pySliceLast yearsP A).reverse :=
    histCells_eq hfind hk hA
  refine ⟨_, hrow, padTo_length _ _ _, by rw [extract_cols, hslice], ?_, ?_⟩
  · -- A no longer than the year list
    intro hDY
    have hDyears : A.length ≤ yearsP := le_trans hDY hY
    have hsliceA : pySliceLast yearsP A = A := pySliceLast_of_le hDyears
    have hbr : buildRow p.fin yearsP label keys =
        ttmCell p.fin label keys :: A.reverse := by
      unfold buildRow
      rw [hhist, hsliceA]
    have hbrlen : (buildRow p.fin yearsP label keys).length = A.length + 1 := by
      rw [hbr]
      simp
    have hr : padTo none (buildRow p.fin yearsP label keys)
        ((yearLabels p).length + 1) =
        ttmCell p.fin label keys ::
          (A.reverse ++ List.replicate ((yearLabels p).length - A.length) none) := by
      rw [padTo_of_le (by omega), hbr]
      simp only [List.length_cons, List.length_reverse, List.cons_append]
      have he : (yearLabels p).length + 1 - (A.length + 1) =
          (yearLabels p).length - A.length := by omega
      rw [he]
    refine ⟨?_, ?_, ?_⟩
    · intro i hi
      rw [hr]
      have h1 : A.length - i = (A.length - i - 1) + 1 := by omega
      rw [h1, List.getElem?_cons_succ,
        List.getElem?_append_left (by rw [List.length_reverse]; omega),
        List.getElem?_reverse (by omega : A.length - i - 1 < A.length)]
      congr 1
      omega
    · intro i hi
      rw [extract_cols, hslice]
      have h1 : A.length - i = (A.length - i - 1) + 1 := by omega
      rw [h1, List.getElem?_cons_succ,
        List.getElem?_reverse (by omega : A.length - i - 1 < (yearLabels p).length)]
      congr 1
      omega
    · intro j hj1 hj2
      rw [hr]
      have h1 : j = (j - 1) + 1 := by omega
      rw [h1, List.getElem?_cons_succ,
        List.getElem?_append_right (by rw [List.length_reverse]; omega),
        List.length_reverse,
        List.getElem?_replicate_of_lt (by omega : j - 1 - A.length <
          (yearLabels p).length - A.length)]
  · -- A longer than the year list: truncation to the newest Y elements
    intro hYD j hj
    by_cases h0 : yearsP = 0
    · omega
    · have hsliceA : pySliceLast yearsP A = A.drop (A.length - yearsP) := by
        unfold pySliceLast
        rw [if_neg h0]
      have hbr : buildRow p.fin yearsP label keys =
          ttmCell p.fin label keys :: (A.drop (A.length - yearsP)).reverse := by
        unfold buildRow
        rw [hhist, hsliceA]
      have hjL : j < A.length - (A.length - yearsP) := by omega
      unfold padTo
      rw [hbr,
        List.getElem?_take_of_lt (by omega : j + 1 < (yearLabels p).length + 1),
        List.cons_append, List.getElem?_cons_succ,
        List.getElem?_append_left
          (by rw [List.length_reverse, List.length_drop]; omega),
        List.getElem?_reverse (by rw [List.length_drop]; omega),
        List.getElem?_drop]
      congr 1
      rw [List.length_drop]
      omega

/-- Witness for C1: on the worked example (years 2020 to 2022, revenue
array of two elements) 200 sits under 2022, 100 under 2021, and the 2020
revenue cell is null. -/
theorem hist_right_alignment_witness :
    ∃ r, List.lookup "Revenue" (extract_historical_df pC1 10).rows = some r ∧
      r[1]? = some (some 200) ∧
      (extract_historical_df pC1 10).cols[1]? = some "2022" ∧
      r[2]? = some (some 100) ∧
      (extract_historical_df pC1 10).cols[2]? = some "2021" ∧
      r[3]? = some none ∧
      (extract_historical_df pC1 10).cols[3]? = some "2020" := by
  obtain ⟨r, hr, hlen, hcols, hle, hgt⟩ := hist_right_alignment pC1 10 "Revenue"
    ["revenue"] "revenue" [some 100, some 200] (by decide) (by decide)
    (by decide) (by decide) (by decide)
  obtain ⟨ha, hb, hc⟩ := hle (by decide)
  refine ⟨r, hr, (ha 1 (by decide)).trans (by decide),
    (hb 1 (by decide)).trans (by decide),
    (ha 0 (by decide)).trans (by decide),
    (hb 0 (by decide)).trans (by decide),
    hc 3 (by decide) (by decide), ?_⟩
  rw [hcols]
  decide

/-- C7: the extraction never raises to its caller.  For every JSON payload,
however malformed, the try/except wrapper either returns the successfully
built table or converts the internal exception into the empty table; in
particular a null payload and a payload whose financials section is a bare
number both yield the empty table rather than an error. -/
theorem extract_never_raises :
    (∀ (data : Json) (years : Nat),
      (∃ t, extract_body data years = Except.ok t ∧
        extract_historical_df_raw data years = t) ∨
      ((∃ e, extract_body data years = Except.error e) ∧
        extract_historical_df_raw data years = JTable.empty)) ∧
    (extract_historical_df_raw Json.null 10).cols = [] ∧
    (extract_historical_df_raw Json.null 10).rows = [] ∧
    (extract_historical_df_raw
      (Json.obj [("data", Json.obj [("financials", Json.num 3)])]) 10).cols = [] ∧
    (extract_historical_df_raw
      (Json.obj [("data", Json.obj [("financials", Json.num 3)])]) 10).rows = [] := by
  refine ⟨fun data years => ?_, rfl, rfl, rfl, rfl⟩
  unfold extract_historical_df_raw
  cases h : extract_body data years with
  | ok t => exact Or.inl ⟨t, rfl, rfl⟩
  | error e => exact Or.inr ⟨⟨e, rfl⟩, rfl⟩

/-- Counterexample to C8 as stated: a non-numeric argument does not map to
the string N/A; it raises a TypeError from abs, exactly as Python does. -/
theorem format_currency_nonnumeric_raises :
    format_currency (PyVal.vstr "abc") "$" =
      Except.error "TypeError: bad operand type for abs(): str" ∧
    ¬ format_currency (PyVal.vstr "abc") "$" = Except.ok "N/A" :=
  ⟨rfl, fun h => Except.noConfusion h⟩

theorem roundHalfEven_intCast (n : Int) : roundHalfEven ((n : Rat)) = n := by
  unfold roundHalfEven
  rw [Int.floor_intCast, sub_self, if_pos (by norm_num : (0 : Rat) < 1/2)]

theorem format_currency_num (q : Rat) (s : String) :
    format_currency (PyVal.vnum q) s =
      if 1000000000 ≤ |q| then Except.ok (s ++ fmt2 (q / 1000000000) ++ "B")
      else if 1000000 ≤ |q| then Except.ok (s ++ fmt2 (q / 1000000) ++ "M")
      else Except.ok (s ++ fmtComma2 q) := rfl

theorem fmt2_startsWith_dash {q : Rat} (h : q < 0) : ∃ t, fmt2 q = "-" ++ t :=
  ⟨toString ((roundHalfEven (q * 100)).natAbs / 100) ++ "." ++
      twoDigits ((roundHalfEven (q * 100)).natAbs % 100),
    by unfold fmt2; rw [if_pos h]⟩

theorem fmtComma2_startsWith_dash {q : Rat} (h : q < 0) :
    ∃ t, fmtComma2 q = "-" ++ t :=
  ⟨commaGroup (toString ((roundHalfEven (q * 100)).natAbs / 100)) ++ "." ++
      twoDigits ((roundHalfEven (q * 100)).natAbs % 100),
    by unfold fmtComma2; rw [if_pos h]⟩

/-- C8 amended: format_currency maps null to N/A and follows the magnitude
rule with the sign preserved through scaling on every numeric input, on
which it is total; but a non-numeric input raises TypeError from abs rather
than mapping to N/A (see the counterexample). -/
theorem format_currency_behavior :
    (∀ s, format_currency PyVal.vnone s = Except.ok "N/A") ∧
    (∀ q s, ∃ out, format_currency (PyVal.vnum q) s = Except.ok out) ∧
    (∀ q s, 1000000000 ≤ |q| →
      format_currency (PyVal.vnum q) s =
        Except.ok (s ++ fmt2 (q / 1000000000) ++ "B") ∧
      (q < 0 → ∃ t, fmt2 (q / 1000000000) = "-" ++ t)) ∧
    (∀ q s, ¬ 1000000000 ≤ |q| → 1000000 ≤ |q| →
      format_currency (PyVal.vnum q) s =
        Except.ok (s ++ fmt2 (q / 1000000) ++ "M") ∧
      (q < 0 → ∃ t, fmt2 (q / 1000000) = "-" ++ t)) ∧
    (∀ q s, ¬ 1000000 ≤ |q| →
      format_currency (PyVal.vnum q) s = Except.ok (s ++ fmtComma2 q) ∧
      (q < 0 → ∃ t, fmtComma2 q = "-" ++ t)) ∧
    format_currency (PyVal.vnum 1500000000) "$" = Except.ok "$1.50B" ∧
    format_currency (PyVal.vnum (-2500000)) "$" = Except.ok "$-2.50M" ∧
    format_currency (PyVal.vnum 999) "$" = Except.ok "$999.00" := by
  refine ⟨fun s => rfl, ?_, ?_, ?_, ?_, ?_, ?_, ?_⟩
  · intro q s
    rw [format_currency_num]
    split
    · exact ⟨_, rfl⟩
    · split
      · exact ⟨_, rfl⟩
      · exact ⟨_, rfl⟩
  · intro q s h
    refine ⟨?_, fun hq => fmt2_startsWith_dash
      (div_neg_of_neg_of_pos hq (by norm_num))⟩
    rw [format_currency_num, if_pos h]
  · intro q s h1 h2
    refine ⟨?_, fun hq => fmt2_startsWith_dash
      (div_neg_of_neg_of_pos hq (by norm_num))⟩
    rw [format_currency_num, if_neg h1, if_pos h2]
  · intro q s h1
    have h9 : ¬ 1000000000 ≤ |q| := by
      intro hc
      exact h1 (by linarith)
    refine ⟨?_, fun hq => fmtComma2_startsWith_dash hq⟩
    rw [format_currency_num, if_neg h9, if_neg h1]
  · rw [format_currency_num,
      if_pos (by norm_num : (1000000000 : Rat) ≤ |(1500000000 : Rat)|)]
    unfold fmt2
    rw [show (1500000000 : Rat) / 1000000000 * 100 = ((150 : Int) : Rat) by
        norm_num,
      roundHalfEven_intCast,
      if_neg (by norm_num : ¬ (1500000000 : Rat) / 1000000000 < 0)]
    rfl
  · rw [format_currency_num,
      if_neg (by norm_num : ¬ (1000000000 : Rat) ≤ |(-2500000 : Rat)|),
      if_pos (by norm_num : (1000000 : Rat) ≤ |(-2500000 : Rat)|)]
    unfold fmt2
    rw [show (-2500000 : Rat) / 1000000 * 100 = ((-250 : Int) : Rat) by norm_num,
      roundHalfEven_intCast,
      if_pos (by norm_num : (-2500000 : Rat) / 1000000 < 0)]
    rfl
  · rw [format_currency_num,
      if_neg (by norm_num : ¬ (1000000000 : Rat) ≤ |(999 : Rat)|),
      if_neg (by norm_num : ¬ (1000000 : Rat) ≤ |(999 : Rat)|)]
    unfold fmtComma2
    rw [show (999 : Rat) * 100 = ((99900 : Int) : Rat) by norm_num,
      roundHalfEven_intCast,
      if_neg (by norm_num : ¬ (999 : Rat) < 0)]
    rfl

/-- Witness for C8 amended: a negative value in the billions keeps its sign
through the scaling. -/
theorem format_currency_behavior_witness :
    format_currency (PyVal.vnum (-3000000000)) "$" = Except.ok "$-3.00B" := by
  have h := (format_currency_behavior).2.2.1 (-3000000000) "$"
    (by norm_num : (1000000000 : Rat) ≤ |(-3000000000 : Rat)|)
  rw [h.1]
  unfold fmt2
  rw [show (-3000000000 : Rat) / 1000000000 * 100 = ((-300 : Int) : Rat) by
      norm_num,
    roundHalfEven_intCast,
    if_pos (by norm_num : (-3000000000 : Rat) / 1000000000 < 0)]
  rfl

theorem fetchAux_ok {responses : Nat → HttpResp} {i : Nat} {body : String}
    (h : responses i = HttpResp.resp 200 body) (rem : Nat) :
    fetchAux responses i rem = ⟨some body, 1, 0⟩ := by
  cases rem with
  | zero => unfold fetchAux; rw [h]; simp
  | succ rem => unfold fetchAux; rw [h]; simp

theorem fetchAux_term {responses : Nat → HttpResp} {i code : Nat} {body : String}
    (h : responses i = HttpResp.resp code body) (h200 : ¬ code = 200)
    (h5 : code < 500) (rem : Nat) :
    fetchAux responses i rem = ⟨none, 1, 0⟩ := by
  have h5n : ¬ 500 ≤ code := by omega
  cases rem with
  | zero =>
    unfold fetchAux
    simp only [h]
    rw [if_neg h200, if_neg h5n]
    split <;> rfl
  | succ rem =>
    unfold fetchAux
    simp only [h]
    rw [if_neg h200, if_neg h5n]
    split <;> rfl

theorem fetchAux_net {responses : Nat → HttpResp} {i : Nat} {msg : String}
    (h : responses i = HttpResp.netFail msg) (rem : Nat) :
    fetchAux responses i rem = ⟨none, 1, 0⟩ := by
  cases rem with
  | zero => unfold fetchAux; simp only [h]
  | succ rem => unfold fetchAux; simp only [h]

theorem fetchAux_5xx_last {responses : Nat → HttpResp} {i code : Nat}
    {body : String} (h : responses i = HttpResp.resp code body)
    (h5 : 500 ≤ code) :
    fetchAux responses i 0 = ⟨none, 1, 0⟩ := by
  unfold fetchAux
  simp only [h]
  rw [if_neg (by omega : ¬ code = 200), if_pos h5]

theorem fetchAux_5xx_retry {responses : Nat → HttpResp} {i code : Nat}
    {body : String} (h : responses i = HttpResp.resp code body)
    (h5 : 500 ≤ code) (rem : Nat) :
    fetchAux responses i (rem + 1) =
      ⟨(fetchAux responses (i + 1) rem).result,
        (fetchAux responses (i + 1) rem).requests + 1,
        (fetchAux responses (i + 1) rem).sleeps + 1⟩ := by
  conv_lhs => unfold fetchAux
  simp only [h]
  rw [if_neg (by omega : ¬ code = 200), if_pos h5]

theorem fetchAux_requests_le (responses : Nat → HttpResp) :
    ∀ rem i, (fetchAux responses i rem).requests ≤ rem + 1 := by
  intro rem
  induction rem with
  | zero =>
    intro i
    cases h : responses i with
    | resp code body =>
      by_cases h200 : code = 200
      · rw [fetchAux_ok (h200 ▸ h) 0]
      · by_cases h5 : 500 ≤ code
        · rw [fetchAux_5xx_last h h5]
        · rw [fetchAux_term h h200 (by omega) 0]
    | netFail msg => rw [fetchAux_net h 0]
  | succ rem ih =>
    intro i
    cases h : responses i with
    | resp code body =>
      by_cases h200 : code = 200
      · rw [fetchAux_ok (h200 ▸ h) (rem + 1)]
        simp
      · by_cases h5 : 500 ≤ code
        · rw [fetchAux_5xx_retry h h5 rem]
          have hih := ih (i + 1)
          simp only
          omega
        · rw [fetchAux_term h h200 (by omega) (rem + 1)]
          simp
    | netFail msg =>
      rw [fetchAux_net h (rem + 1)]
      simp

/-- C9: the retry policy of fetch_quickfs_data with its default of two
retries.  A first response that is a non-200 non-5xx status (404 included)
or a transport failure terminates at once with no value returned, one
request made, and no retry; three straight 5xx responses exhaust the two
allowed retries (three requests, one fixed delay between consecutive
attempts, so two sleeps) and terminate with no value; a 200 after a 5xx is
returned on the retry; and no run ever makes more than three requests. -/
theorem fetch_retry_policy (responses : Nat → HttpResp) :
    (∀ code body, responses 0 = HttpResp.resp code body → ¬ code = 200 →
      code < 500 → fetch_quickfs_data responses = ⟨none, 1, 0⟩) ∧
    (∀ msg, responses 0 = HttpResp.netFail msg →
      fetch_quickfs_data responses = ⟨none, 1, 0⟩) ∧
    ((∀ i, i ≤ 2 → ∃ code body, responses i = HttpResp.resp code body ∧
        500 ≤ code) →
      fetch_quickfs_data responses = ⟨none, 3, 2⟩) ∧
    (∀ code body body2, responses 0 = HttpResp.resp code body → 500 ≤ code →
      responses 1 = HttpResp.resp 200 body2 →
      fetch_quickfs_data responses = ⟨some body2, 2, 1⟩) ∧
    (fetch_quickfs_data responses).requests ≤ 3 := by
  refine ⟨?_, ?_, ?_, ?_, ?_⟩
  · intro code body h h200 h5
    exact fetchAux_term h h200 h5 2
  · intro msg h
    exact fetchAux_net h 2
  · intro h
    obtain ⟨c0, b0, h0, h05⟩ := h 0 (by omega)
    obtain ⟨c1, b1, h1, h15⟩ := h 1 (by omega)
    obtain ⟨c2, b2, h2, h25⟩ := h 2 (by omega)
    unfold fetch_quickfs_data
    rw [show (2 : Nat) = 1 + 1 from rfl, fetchAux_5xx_retry h0 h05 (1 + 0),
      show (1 + 0 : Nat) = 0 + 1 from rfl, fetchAux_5xx_retry h1 h15 0,
      fetchAux_5xx_last h2 h25]
  · intro code body body2 h0 h05 h1
    unfold fetch_quickfs_data
    rw [show (2 : Nat) = 1 + 1 from rfl, fetchAux_5xx_retry h0 h05 1,
      fetchAux_ok h1 1]
  · exact fetchAux_requests_le responses 2 0

/-- Witness for C9: all-5xx responses exhaust the retries; a 404 terminates
at once. -/
theorem fetch_retry_policy_witness :
    fetch_quickfs_data (fun _ => HttpResp.resp 503 "down") = ⟨none, 3, 2⟩ ∧
    fetch_quickfs_data (fun _ => HttpResp.resp 404 "nf") = ⟨none, 1, 0⟩ := by
  constructor
  · exact (fetch_retry_policy (fun _ => HttpResp.resp 503 "down")).2.2.1
      (fun i _ => ⟨503, "down", rfl, by omega⟩)
  · exact (fetch_retry_policy (fun _ => HttpResp.resp 404 "nf")).1 404 "nf"
      rfl (by omega) (by omega)

/-! ## Refinement: the raw model agrees with the typed model on encoded
payloads -/

theorem ok_bind {ε α β : Type} (a : α) (f : α → Except ε β) :
    (Except.ok a : Except ε α) >>= f = f a := rfl

theorem lookup_map_val {α β : Type} (m : List (String × α)) (f : α → β)
    (k : String) :
    List.lookup k (m.map (fun kv => (kv.1, f kv.2))) =
      (List.lookup k m).map f := by
  induction m with
  | nil => rfl
  | cons kv t ih =>
    obtain ⟨a, b⟩ := kv
    by_cases h : k = a
    · have hb : (k == a) = true := beq_iff_eq.mpr h
      simp [List.lookup, hb]
    · have hb : (k == a) = false := beq_eq_false_iff_ne.mpr h
      simp [List.lookup, hb, ih]

theorem lookup_encodeFinMap (m : FinMap) (k : String) :
    List.lookup k (m.map (fun kv => (kv.1, Json.arr (kv.2.map encodeOpt)))) =
      (List.lookup k m).map (fun v => Json.arr (v.map encodeOpt)) :=
  lookup_map_val m (fun v => Json.arr (v.map encodeOpt)) k

theorem lookup_encodeTtmMap (m : TtmMap) (k : String) :
    List.lookup k (m.map (fun kv => (kv.1, encodeOpt kv.2))) =
      (List.lookup k m).map encodeOpt :=
  lookup_map_val m encodeOpt k

theorem pyContains_encodeFinMap (m : FinMap) (k : String) :
    Json.pyContainsStr (encodeFinMap m) k =
      .ok ((List.lookup k m).isSome) := by
  unfold encodeFinMap
  simp only [Json.pyContainsStr]
  rw [lookup_encodeFinMap]
  cases List.lookup k m <;> rfl

theorem pyContains_encodeTtmMap (m : TtmMap) (k : String) :
    Json.pyContainsStr (encodeTtmMap m) k =
      .ok ((List.lookup k m).isSome) := by
  unfold encodeTtmMap
  simp only [Json.pyContainsStr]
  rw [lookup_encodeTtmMap]
  cases List.lookup k m <;> rfl

theorem pyIndex_encodeFinMap {m : FinMap} {k : String} {A : List (Option Rat)}
    (h : List.lookup k m = some A) :
    Json.pyIndexStr (encodeFinMap m) k = .ok (Json.arr (A.map encodeOpt)) := by
  unfold encodeFinMap
  simp only [Json.pyIndexStr]
  rw [lookup_encodeFinMap, h]
  rfl

theorem pyIndex_encodeTtmMap {m : TtmMap} {k : String} {v : Option Rat}
    (h : List.lookup k m = some v) :
    Json.pyIndexStr (encodeTtmMap m) k = .ok (encodeOpt v) := by
  unfold encodeTtmMap
  simp only [Json.pyIndexStr]
  rw [lookup_encodeTtmMap, h]
  rfl

theorem encodeFin_contains_ttm (fin : Financials) :
    Json.pyContainsStr (encodeFin fin) "ttm" = .ok fin.ttm.isSome := by
  cases h : fin.ttm <;> (unfold encodeFin; rw [h]) <;> rfl

theorem encodeFin_index_ttm {fin : Financials} {m : TtmMap}
    (h : fin.ttm = some m) :
    Json.pyIndexStr (encodeFin fin) "ttm" = .ok (encodeTtmMap m) := by
  unfold encodeFin
  rw [h]
  rfl

theorem encodeFin_get_annual (fin : Financials) :
    Json.pyGet (encodeFin fin) "annual" (Json.obj []) =
      .ok (encodeFinMap fin.annual) := by
  cases h : fin.ttm <;> (unfold encodeFin; rw [h]) <;> rfl

theorem encodeFin_get_quarterly (fin : Financials) :
    Json.pyGet (encodeFin fin) "quarterly" (Json.obj []) =
      .ok (encodeFinMap fin.quarterly) := by
  cases h : fin.ttm <;> (unfold encodeFin; rw [h]) <;> rfl

theorem encodeFin_get_ttm (fin : Financials) :
    Json.pyGet (encodeFin fin) "ttm" (Json.obj []) =
      .ok (match fin.ttm with
        | some m => encodeTtmMap m
        | none => Json.obj []) := by
  cases h : fin.ttm <;> (unfold encodeFin; rw [h]) <;> rfl

theorem ttmScanRaw_encode (fin : Financials) (keys : List String) :
    ttmScanRaw (encodeFin fin) keys =
      .ok ((ttmScan fin keys).map encodeOpt) := by
  induction keys with
  | nil => rfl
  | cons k ks ih =>
    cases hm : fin.ttm with
    | none =>
      rw [ttmScan_cons_none hm]
      unfold ttmScanRaw
      rw [encodeFin_contains_ttm fin, hm]
      rw [ok_bind]
      simp only [Option.isSome_none, Bool.false_eq_true, if_false]
      exact ih
    | some m =>
      unfold ttmScanRaw
      rw [encodeFin_contains_ttm fin, hm, ok_bind]
      simp only [Option.isSome_some, if_true]
      rw [encodeFin_index_ttm hm, ok_bind, pyContains_encodeTtmMap, ok_bind]
      cases hlk : List.lookup k m with
      | some v =>
        rw [ttmScan_cons_hit hm hlk]
        simp only [Option.isSome_some, if_true]
        rw [pyIndex_encodeTtmMap hlk, ok_bind]
        rfl
      | none =>
        rw [ttmScan_cons_miss hm hlk]
        simp only [Option.isSome_none, Bool.false_eq_true, if_false]
        exact ih

theorem filter_not_isNull (arr : List (Option Rat)) :
    (arr.map encodeOpt).filter (fun x => !x.isNull) =
      (arr.filterMap id).map Json.num := by
  induction arr with
  | nil => rfl
  | cons a t ih =>
    cases a with
    | none => simpa [encodeOpt, Json.isNull] using ih
    | some q => simpa [encodeOpt, Json.isNull] using ih

theorem pySumList_go (l : List Rat) : ∀ acc : Rat,
    List.foldlM (fun acc x =>
      match Json.asNum x with
      | some q => Except.ok (acc + q)
      | none => Except.error "TypeError: unsupported operand for +") acc
      (l.map Json.num) = .ok (acc + l.sum) := by
  induction l with
  | nil =>
    intro acc
    simp
    rfl
  | cons x t ih =>
    intro acc
    rw [List.map_cons, List.foldlM_cons]
    change Except.ok (acc + x) >>= _ = _
    rw [ok_bind, ih, List.sum_cons, add_assoc]

theorem pySumList_map_num (l : List Rat) :
    Json.pySumList (l.map Json.num) = .ok l.sum := by
  unfold Json.pySumList
  rw [pySumList_go, zero_add]

theorem qtrScanRaw_encode (q : FinMap) (keys : List String) :
    qtrScanRaw (encodeFinMap q) keys = .ok (encodeOpt (qtrScan q keys)) := by
  induction keys with
  | nil => rfl
  | cons k ks ih =>
    unfold qtrScanRaw
    rw [pyContains_encodeFinMap, ok_bind]
    cases hlk : List.lookup k q with
    | none =>
      rw [qtrScan_cons_missing hlk]
      simp only [Option.isSome_none, Bool.false_eq_true, if_false]
      exact ih
    | some arr =>
      simp only [Option.isSome_some, if_true]
      rw [pyIndex_encodeFinMap hlk, ok_bind]
      by_cases he : arr.isEmpty
      · have h4 : ¬ 4 ≤ (arr.filterMap id).length := by
          cases arr with
          | nil => simp
          | cons a t => simp at he
        have ht : Json.pyTruthy (Json.arr (arr.map encodeOpt)) = false := by
          cases arr with
          | nil => rfl
          | cons a t => simp at he
        rw [qtrScan_cons_skip hlk h4, ht]
        simp only [Bool.false_eq_true, if_false]
        exact ih
      · have ht : Json.pyTruthy (Json.arr (arr.map encodeOpt)) = true := by
          cases arr with
          | nil => simp at he
          | cons a t => rfl
        rw [ht]
        simp only [if_true]
        rw [show Json.pyIter (Json.arr (arr.map encodeOpt)) =
          .ok (arr.map encodeOpt) from rfl, ok_bind]
        simp only [filter_not_isNull, List.length_map]
        by_cases h4 : 4 ≤ (arr.filterMap id).length
        · rw [qtrScan_cons_hit hlk h4]
          simp only [if_pos h4]
          rw [← List.map_drop, pySumList_map_num, ok_bind]
          rfl
        · rw [qtrScan_cons_skip hlk h4]
          simp only [if_neg h4]
          exact ih

theorem get_ttm_raw_encode (fin : Financials) (keys : List String) :
    get_ttm_raw (encodeFin fin) keys = .ok (encodeOpt (get_ttm fin keys)) := by
  unfold get_ttm_raw
  rw [ttmScanRaw_encode, ok_bind]
  cases hs : ttmScan fin keys with
  | some v =>
    rw [get_ttm_of_scan_some hs]
    rfl
  | none =>
    simp only [Option.map_none']
    rw [get_ttm_of_scan_none hs, encodeFin_get_quarterly, ok_bind,
      qtrScanRaw_encode]

theorem findFirstContained_encode (m : FinMap) (keys : List String) :
    findFirstContained (encodeFinMap m) keys =
      .ok (keys.find? (fun k => (List.lookup k m).isSome)) := by
  induction keys with
  | nil => rfl
  | cons k ks ih =>
    unfold findFirstContained
    rw [pyContains_encodeFinMap, ok_bind]
    cases hlk : List.lookup k m with
    | some arr =>
      rw [List.find?_cons_of_pos _ (by rw [hlk]; rfl)]
      rfl
    | none =>
      rw [List.find?_cons_of_neg _ (by rw [hlk]; simp)]
      simp only [Option.isSome_none, Bool.false_eq_true, if_false]
      exact ih

theorem mapM_ok {α β : Type} (f : α → Except String β) (g : α → β)
    (l : List α) (h : ∀ a ∈ l, f a = .ok (g a)) :
    l.mapM f = .ok (l.map g) := by
  induction l with
  | nil => rfl
  | cons a t ih =>
    rw [List.mapM_cons, h a (List.mem_cons_self a t), ok_bind,
      ih (fun b hb => h b (List.mem_cons_of_mem _ hb)), ok_bind]
    rfl

theorem mapM_split_encode (dates : List String) :
    (dates.map Json.str).mapM Json.pySplitDashHead =
      .ok (dates.map yearLabel) := by
  induction dates with
  | nil => rfl
  | cons d t ih =>
    rw [List.map_cons, List.mapM_cons,
      show Json.pySplitDashHead (Json.str d) = .ok (yearLabel d) from rfl,
      ok_bind, ih, ok_bind]
    rfl

theorem pySliceLast_map {α β : Type} (f : α → β) (n : Nat) (l : List α) :
    pySliceLast n (l.map f) = (pySliceLast n l).map f := by
  unfold pySliceLast
  by_cases h : n = 0
  · simp [h]
  · rw [if_neg h, if_neg h, List.length_map, List.map_drop]

theorem padTo_map (v : List (Option Rat)) (n : Nat) :
    (padTo none v n).map encodeOpt = padTo Json.null (v.map encodeOpt) n := by
  unfold padTo
  rw [List.map_take, List.map_append, List.map_replicate, List.length_map]
  rfl

theorem ttmCell_of_some {fin : Financials} {label : String} {keys : List String}
    {v : Rat} (h : get_ttm fin keys = some v) :
    ttmCell fin label keys = some v := by
  unfold ttmCell
  rw [h]
  simp

theorem ttmCell_nopat_none {fin : Financials} {keys : List String}
    (h : get_ttm fin keys = none) :
    ttmCell fin "NOPAT" keys = nopatRule fin := by
  unfold ttmCell
  rw [h]
  simp

theorem pure_bind_except {ε α β : Type} (a : α) (f : α → Except ε β) :
    (pure a : Except ε α) >>= f = f a := rfl

theorem ttmValRaw_encode (fin : Financials) (label : String) (keys : List String) :
    ttmValRaw (encodeFin fin) label keys =
      .ok (encodeOpt (ttmCell fin label keys)) := by
  unfold ttmValRaw
  rw [get_ttm_raw_encode, ok_bind]
  cases ht : get_ttm fin keys with
  | some v =>
    rw [if_neg (by simp [encodeOpt, Json.isNull]), ttmCell_of_some ht]
    rfl
  | none =>
    by_cases hl : label = "NOPAT"
    · rw [if_pos ⟨hl, rfl⟩, get_ttm_raw_encode, ok_bind, get_ttm_raw_encode,
        ok_bind]
      subst hl
      rw [ttmCell_nopat_none ht]
      unfold nopatRule
      cases hop : get_ttm fin ["operating_income"] with
      | some opv =>
        cases htax : get_ttm fin ["income_tax"] with
        | some taxv => rfl
        | none => rfl
      | none => rfl
    · rw [if_neg (fun hc => hl hc.1), ttmCell_of_ne hl, ht]
      rfl

theorem buildRowRaw_encode (fin : Financials) (years : Nat)
    (lk : String × List String) :
    buildRowRaw (encodeFin fin) (encodeFinMap fin.annual) years lk =
      .ok (lk.1, (buildRow fin years lk.1 lk.2).map encodeOpt) := by
  unfold buildRowRaw
  rw [ttmValRaw_encode, ok_bind]
  unfold histRaw
  rw [findFirstContained_encode, ok_bind]
  unfold buildRow
  rw [List.map_cons]
  cases hf : lk.2.find? (fun k => (List.lookup k fin.annual).isSome) with
  | none =>
    unfold histCells
    simp only [hf]
    rw [pure_bind_except, List.map_replicate]
    rfl
  | some k =>
    have hp := List.find?_some hf
    obtain ⟨A, hA⟩ := Option.isSome_iff_exists.mp hp
    by_cases hk : k = ""
    · unfold histCells
      simp only [hf, hk, if_true]
      rw [pure_bind_except, List.map_replicate]
      rfl
    · simp only [hf]
      rw [if_neg hk, pyIndex_encodeFinMap hA, ok_bind,
        show Json.pySliceRev (Json.arr (A.map encodeOpt)) years =
          .ok ((pySliceLast years (A.map encodeOpt)).reverse) from rfl,
        ok_bind, histCells_eq hf hk hA, pySliceLast_map, List.map_reverse]
      rfl

/-- Refinement: on the JSON encoding of any schema-conforming payload the
raw extraction body succeeds, and its table is exactly the encoding of the
table the typed model produces.  The typed model of Part 1 is therefore a
sound description of the source behaviour on schema-conforming payloads. -/
theorem extract_body_encode (p : Payload) (years : Nat) :
    extract_body (encodePayload p) years =
      .ok (encodeTable (extract_historical_df p years)) := by
  have h1 : extract_body (encodePayload p) years = (do
      let years_list ← (p.periodEndDate.map Json.str).mapM Json.pySplitDashHead
      let history ← metricsMap.mapM
        (buildRowRaw (encodeFin p.fin) (encodeFinMap p.fin.annual) years)
      let cols := "TTM" :: (pySliceLast years years_list).reverse
      return (⟨cols, history.map (fun r => (r.1, padTo Json.null r.2 cols.length))⟩
        : JTable)) := rfl
  rw [h1, mapM_split_encode, ok_bind,
    mapM_ok (buildRowRaw (encodeFin p.fin) (encodeFinMap p.fin.annual) years)
      (fun lk => (lk.1, (buildRow p.fin years lk.1 lk.2).map encodeOpt))
      metricsMap (fun a _ => buildRowRaw_encode p.fin years a),
    ok_bind]
  show Except.ok _ = Except.ok _
  congr 1
  simp only [extract_historical_df, encodeTable, yearLabels, List.map_map]
  congr 1
  apply List.map_congr_left
  intro lk _
  show (lk.1, padTo Json.null ((buildRow p.fin years lk.1 lk.2).map encodeOpt) _) =
    (lk.1, (padTo none (buildRow p.fin years lk.1 lk.2) _).map encodeOpt)
  rw [padTo_map] 

/-- The wrapped raw extraction agrees with the typed model on every encoded
schema-conforming payload (and in particular never takes the exception
branch there). -/
theorem extract_raw_encode (p : Payload) (years : Nat) :
    extract_historical_df_raw (encodePayload p) years =
      encodeTable (extract_historical_df p years) := by
  unfold extract_historical_df_raw
  rw [extract_body_encode]
